import Mathlib

/-!
Verification of the ADZDB append-only content-addressable storage engine.

The Rust source (`src/lib.rs`) is shallowly embedded: byte buffers become
`List Nat` (each element a byte value), machine integers become `Nat` with
explicit `% 2 ^ w` at the points where the source performs wrapping
arithmetic or truncating casts, the four backing files become byte lists
held in the state record, and the two `HashMap`s become function maps
`key → Option value` updated pointwise.
-/

namespace ADZDB

/-- Little-endian encoding of `n` into `k` bytes, mirroring
`u64::to_le_bytes` / `u32::to_le_bytes` followed by `copy_from_slice`. -/
def toLE (k n : Nat) : List Nat :=
  match k with
  | 0 => []
  | k + 1 => n % 256 :: toLE k (n / 256)

/-- Little-endian decoding of a byte list, mirroring `u64::from_le_bytes` /
`u32::from_le_bytes`. -/
def fromLE (l : List Nat) : Nat :=
  match l with
  | [] => 0
  | b :: bs => b + 256 * fromLE bs

@[simp] theorem toLE_length (k n : Nat) : (toLE k n).length = k := by
  induction k generalizing n with
  | zero => rfl
  | succ k ih => simp [toLE, ih]

theorem fromLE_toLE (k n : Nat) (h : n < 256 ^ k) : fromLE (toLE k n) = n := by
  induction k generalizing n with
  | zero =>
    simp [Nat.pow_zero] at h
    simp [h, toLE, fromLE]
  | succ k ih =>
    have hdiv : n / 256 < 256 ^ k := by
      rw [Nat.div_lt_iff_lt_mul (by norm_num : 0 < 256)]
      calc n < 256 ^ (k + 1) := h
        _ = 256 ^ k * 256 := by ring
    simp [toLE, fromLE, ih (n / 256) hdiv]
    omega

/-- `pub const MAGIC: &[u8; 4] = b"ADZB"` as byte values. -/
def MAGIC : List Nat := [65, 68, 90, 66]

/-- `pub const VERSION: u32 = 1`. -/
def VERSION : Nat := 1

/-- `pub const MAX_VALUE_SIZE: u64 = 1 << 30`. -/
def MAX_VALUE_SIZE : Nat := 2 ^ 30

/-- `pub const MAX_REASONABLE_HEIGHT: u64 = 10_000_000`. -/
def MAX_REASONABLE_HEIGHT : Nat := 10000000

/-- `pub type Hash = [u8; 32]`, embedded as a byte list (length 32 for
values produced by the Rust type). -/
abbrev Hash := List Nat

/-- `pub const ZERO_HASH: Hash = [0u8; 32]`. -/
def ZERO_HASH : Hash := List.replicate 32 0

/-- `pub enum Error` from the source, with `io::Error` payloads dropped. -/
inductive Error where
  | ioFailure
  | notFound
  | corruption (msg : String)
  | valueTooLarge (size : Nat)
  | alreadyExists
  | invalidConfig (msg : String)
  | hashMismatch (expected actual : Hash)
  | heightTooLarge (h : Nat)
deriving DecidableEq

/-- `pub struct IndexEntry` (56-byte fixed layout). -/
structure IndexEntry where
  key : Hash
  offset : Nat
  size : Nat
  height : Nat
  flags : Nat
deriving DecidableEq

/-- `IndexEntry::to_bytes`: key at 0..32, offset LE at 32..40,
size LE at 40..44, height LE at 44..52, flags LE at 52..56. -/
def IndexEntry.to_bytes (e : IndexEntry) : List Nat :=
  e.key ++ toLE 8 e.offset ++ toLE 4 e.size ++ toLE 8 e.height ++ toLE 4 e.flags

/-- `IndexEntry::from_bytes`. -/
def IndexEntry.from_bytes (l : List Nat) : IndexEntry :=
  { key := l.take 32
    offset := fromLE ((l.drop 32).take 8)
    size := fromLE ((l.drop 40).take 4)
    height := fromLE ((l.drop 44).take 8)
    flags := fromLE ((l.drop 52).take 4) }

/-- `pub struct HeightEntry` (40-byte fixed layout). -/
structure HeightEntry where
  height : Nat
  hash : Hash
deriving DecidableEq

/-- `HeightEntry::to_bytes`: height LE at 0..8, hash at 8..40. -/
def HeightEntry.to_bytes (e : HeightEntry) : List Nat :=
  toLE 8 e.height ++ e.hash

/-- `HeightEntry::from_bytes`. -/
def HeightEntry.from_bytes (l : List Nat) : HeightEntry :=
  { height := fromLE (l.take 8)
    hash := (l.drop 8).take 32 }

/-- `pub struct Metadata` (96-byte fixed layout). -/
structure Metadata where
  magic : List Nat
  version : Nat
  entry_count : Nat
  data_size : Nat
  latest_height : Nat
  latest_hash : Hash
  genesis_hash : Hash
deriving DecidableEq

/-- `Metadata::default()`. -/
def Metadata.default : Metadata :=
  { magic := MAGIC
    version := VERSION
    entry_count := 0
    data_size := 0
    latest_height := 0
    latest_hash := ZERO_HASH
    genesis_hash := ZERO_HASH }

/-- `Metadata::to_bytes`. -/
def Metadata.to_bytes (m : Metadata) : List Nat :=
  m.magic ++ toLE 4 m.version ++ toLE 8 m.entry_count ++ toLE 8 m.data_size ++
    toLE 8 m.latest_height ++ m.latest_hash ++ m.genesis_hash

/-- The field extraction part of `Metadata::from_bytes` (the struct literal
built after the magic check). -/
def Metadata.decodeRaw (l : List Nat) : Metadata :=
  { magic := l.take 4
    version := fromLE ((l.drop 4).take 4)
    entry_count := fromLE ((l.drop 8).take 8)
    data_size := fromLE ((l.drop 16).take 8)
    latest_height := fromLE ((l.drop 24).take 8)
    latest_hash := (l.drop 32).take 32
    genesis_hash := (l.drop 64).take 32 }

/-- `Metadata::from_bytes`: checks the magic first, then decodes, then
rejects a latest height above `MAX_REASONABLE_HEIGHT`. -/
def Metadata.from_bytes (l : List Nat) : Except Error Metadata :=
  if l.take 4 ≠ MAGIC then .error (.corruption "Invalid magic bytes")
  else if (Metadata.decodeRaw l).latest_height > MAX_REASONABLE_HEIGHT then
    .error (.heightTooLarge (Metadata.decodeRaw l).latest_height)
  else .ok (Metadata.decodeRaw l)

/-- The in-range conditions guaranteed by the Rust types
(`[u8; 32]`, `u64`, `u32`) for an `IndexEntry`. -/
def IndexEntry.Valid (e : IndexEntry) : Prop :=
  e.key.length = 32 ∧ e.offset < 2 ^ 64 ∧ e.size < 2 ^ 32 ∧
    e.height < 2 ^ 64 ∧ e.flags < 2 ^ 32

instance (e : IndexEntry) : Decidable e.Valid := by
  unfold IndexEntry.Valid; infer_instance

/-- The in-range conditions guaranteed by the Rust types for a `HeightEntry`. -/
def HeightEntry.Valid (e : HeightEntry) : Prop :=
  e.height < 2 ^ 64 ∧ e.hash.length = 32

instance (e : HeightEntry) : Decidable e.Valid := by
  unfold HeightEntry.Valid; infer_instance

/-- The in-range conditions guaranteed by the Rust types for a `Metadata`. -/
def Metadata.Valid (m : Metadata) : Prop :=
  m.magic.length = 4 ∧ m.version < 2 ^ 32 ∧ m.entry_count < 2 ^ 64 ∧
    m.data_size < 2 ^ 64 ∧ m.latest_height < 2 ^ 64 ∧
    m.latest_hash.length = 32 ∧ m.genesis_hash.length = 32

instance (m : Metadata) : Decidable m.Valid := by
  unfold Metadata.Valid; infer_instance

theorem indexEntry_to_bytes_length (e : IndexEntry) (hk : e.key.length = 32) :
    e.to_bytes.length = 56 := by
  simp [IndexEntry.to_bytes, hk]

theorem heightEntry_to_bytes_length (e : HeightEntry) (hh : e.hash.length = 32) :
    e.to_bytes.length = 40 := by
  simp [HeightEntry.to_bytes, hh]

theorem metadata_to_bytes_length (m : Metadata) (hm : m.magic.length = 4)
    (hl : m.latest_hash.length = 32) (hg : m.genesis_hash.length = 32) :
    m.to_bytes.length = 96 := by
  simp [Metadata.to_bytes, hm, hl, hg]

theorem indexEntry_from_to (e : IndexEntry) (hv : e.Valid) :
    IndexEntry.from_bytes e.to_bytes = e := by
  obtain ⟨hk, ho, hs, hh, hf⟩ := hv
  have h32 : e.to_bytes.drop 32 = toLE 8 e.offset ++ (toLE 4 e.size ++ (toLE 8 e.height ++ toLE 4 e.flags)) := by
    simp only [IndexEntry.to_bytes, List.append_assoc]
    exact List.drop_left' hk
  have h40 : e.to_bytes.drop 40 = toLE 4 e.size ++ (toLE 8 e.height ++ toLE 4 e.flags) := by
    have : (40 : Nat) = 32 + 8 := by norm_num
    rw [this, ← List.drop_drop, h32, List.drop_left' (by simp)]
  have h44 : e.to_bytes.drop 44 = toLE 8 e.height ++ toLE 4 e.flags := by
    have : (44 : Nat) = 40 + 4 := by norm_num
    rw [this, ← List.drop_drop, h40, List.drop_left' (by simp)]
  have h52 : e.to_bytes.drop 52 = toLE 4 e.flags := by
    have : (52 : Nat) = 44 + 8 := by norm_num
    rw [this, ← List.drop_drop, h44, List.drop_left' (by simp)]
  have hkey : e.to_bytes.take 32 = e.key := by
    simp only [IndexEntry.to_bytes, List.append_assoc]
    exact List.take_left' hk
  simp only [IndexEntry.from_bytes, hkey, h32, h40, h44, h52]
  rw [List.take_left' (by simp), List.take_left' (by simp), List.take_left' (by simp),
    List.take_of_length_le (by simp)]
  rw [fromLE_toLE 8 e.offset (by norm_num at ho ⊢; omega),
    fromLE_toLE 4 e.size (by norm_num at hs ⊢; omega),
    fromLE_toLE 8 e.height (by norm_num at hh ⊢; omega),
    fromLE_toLE 4 e.flags (by norm_num at hf ⊢; omega)]

theorem heightEntry_from_to (e : HeightEntry) (hv : e.Valid) :
    HeightEntry.from_bytes e.to_bytes = e := by
  obtain ⟨hh, hha⟩ := hv
  simp only [HeightEntry.from_bytes, HeightEntry.to_bytes]
  rw [List.take_left' (by simp), List.drop_left' (by simp),
    List.take_of_length_le (by omega),
    fromLE_toLE 8 e.height (by norm_num at hh ⊢; omega)]

theorem Metadata.decodeRaw_to_bytes (m : Metadata) (hv : m.Valid) :
    Metadata.decodeRaw m.to_bytes = m := by
  obtain ⟨hml, hver, hec, hds, hlh, hlha, hgh⟩ := hv
  have h4 : m.to_bytes.drop 4 = toLE 4 m.version ++ (toLE 8 m.entry_count ++ (toLE 8 m.data_size ++ (toLE 8 m.latest_height ++ (m.latest_hash ++ m.genesis_hash)))) := by
    simp only [Metadata.to_bytes, List.append_assoc]
    exact List.drop_left' hml
  have h8 : m.to_bytes.drop 8 = toLE 8 m.entry_count ++ (toLE 8 m.data_size ++ (toLE 8 m.latest_height ++ (m.latest_hash ++ m.genesis_hash))) := by
    have : (8 : Nat) = 4 + 4 := by norm_num
    rw [this, ← List.drop_drop, h4, List.drop_left' (by simp)]
  have h16 : m.to_bytes.drop 16 = toLE 8 m.data_size ++ (toLE 8 m.latest_height ++ (m.latest_hash ++ m.genesis_hash)) := by
    have : (16 : Nat) = 8 + 8 := by norm_num
    rw [this, ← List.drop_drop, h8, List.drop_left' (by simp)]
  have h24 : m.to_bytes.drop 24 = toLE 8 m.latest_height ++ (m.latest_hash ++ m.genesis_hash) := by
    have : (24 : Nat) = 16 + 8 := by norm_num
    rw [this, ← List.drop_drop, h16, List.drop_left' (by simp)]
  have h32 : m.to_bytes.drop 32 = m.latest_hash ++ m.genesis_hash := by
    have : (32 : Nat) = 24 + 8 := by norm_num
    rw [this, ← List.drop_drop, h24, List.drop_left' (by simp)]
  have h64 : m.to_bytes.drop 64 = m.genesis_hash := by
    have : (64 : Nat) = 32 + 32 := by norm_num
    rw [this, ← List.drop_drop, h32, List.drop_left' hlha]
  have hmagic : m.to_bytes.take 4 = m.magic := by
    simp only [Metadata.to_bytes, List.append_assoc]
    exact List.take_left' hml
  simp only [Metadata.decodeRaw, hmagic, h4, h8, h16, h24, h32, h64]
  rw [List.take_left' (by simp), List.take_left' (by simp), List.take_left' (by simp),
    List.take_left' (by simp), List.take_left' hlha,
    List.take_of_length_le (by omega)]
  rw [fromLE_toLE 4 m.version (by norm_num at hver ⊢; omega),
    fromLE_toLE 8 m.entry_count (by norm_num at hec ⊢; omega),
    fromLE_toLE 8 m.data_size (by norm_num at hds ⊢; omega),
    fromLE_toLE 8 m.latest_height (by norm_num at hlh ⊢; omega)]

theorem metadata_from_to (m : Metadata) (hv : m.Valid) (hm : m.magic = MAGIC)
    (hh : m.latest_height ≤ MAX_REASONABLE_HEIGHT) :
    Metadata.from_bytes m.to_bytes = .ok m := by
  have hraw := Metadata.decodeRaw_to_bytes m hv
  have hmagic : m.to_bytes.take 4 = MAGIC := by
    simp only [Metadata.to_bytes, List.append_assoc]
    rw [List.take_left' hv.1, hm]
  rw [Metadata.from_bytes, if_neg (by simp [hmagic]), hraw, if_neg (by omega)]

instance {ε α : Type} [DecidableEq ε] [DecidableEq α] :
    DecidableEq (Except ε α)
  | .ok a, .ok b =>
    if h : a = b then .isTrue (by rw [h]) else .isFalse (by simp [h])
  | .ok _, .error _ => .isFalse (by simp)
  | .error _, .ok _ => .isFalse (by simp)
  | .error e, .error f =>
    if h : e = f then .isTrue (by rw [h]) else .isFalse (by simp [h])

/-- Empty map, mirroring `HashMap::new()`. -/
def hmEmpty {α β : Type} : α → Option β := fun _ => none

/-- Pointwise map update, mirroring `HashMap::insert` (later inserts win). -/
def hmInsert {α β : Type} [DecidableEq α] (m : α → Option β) (k : α) (v : β) :
    α → Option β :=
  fun x => if x = k then some v else m x

@[simp] theorem hmInsert_self {α β : Type} [DecidableEq α]
    (m : α → Option β) (k : α) (v : β) : hmInsert m k v k = some v := by
  simp [hmInsert]

@[simp] theorem hmInsert_other {α β : Type} [DecidableEq α]
    (m : α → Option β) (k x : α) (v : β) (h : x ≠ k) :
    hmInsert m k v x = m x := by
  simp [hmInsert, h]

/-- `pub struct Database`: the four backing files as byte lists, the two
in-memory maps, the metadata aggregate, and the one configuration flag the
engine consults (`Config::sync_on_write`). -/
structure Database where
  sync_on_write : Bool
  data_file : List Nat
  index_file : List Nat
  height_file : List Nat
  meta_file : List Nat
  hash_index : Hash → Option IndexEntry
  height_index : Nat → Option Hash
  metadata : Metadata

/-- `Database::create`: empty files, empty maps, default metadata written
to the metadata file. -/
def Database.create (sync : Bool) : Database :=
  { sync_on_write := sync
    data_file := []
    index_file := []
    height_file := []
    meta_file := Metadata.default.to_bytes
    hash_index := hmEmpty
    height_index := hmEmpty
    metadata := Metadata.default }

/-- `Database::sync`: rewrites the metadata record at the start of the
metadata file (the file always holds exactly one 96-byte record) and flushes
all four files (flushing has no effect in this embedding). -/
def Database.sync (db : Database) : Database :=
  { db with meta_file := db.metadata.to_bytes }

/-- `Database::put`. Wrapping `u64` arithmetic is `% 2 ^ 64`; the
`data.len() as u32` size cast is `% 2 ^ 32`; the end-of-file seek yields the
current data file length. Returns the `Result<()>` paired with the
post-call state of `&mut self`. -/
def Database.put (db : Database) (hash : Hash) (height : Nat)
    (data : List Nat) : Except Error Unit × Database :=
  if height > MAX_REASONABLE_HEIGHT then (.error (.heightTooLarge height), db)
  else if (db.hash_index hash).isSome then (.ok (), db)
  else
    let offset := db.data_file.length
    let entry : IndexEntry :=
      { key := hash, offset := offset, size := data.length % 2 ^ 32,
        height := height, flags := 0 }
    let hentry : HeightEntry := { height := height, hash := hash }
    let db1 : Database :=
      { db with
        data_file := db.data_file ++ data
        index_file := db.index_file ++ entry.to_bytes
        height_file := db.height_file ++ hentry.to_bytes
        hash_index := hmInsert db.hash_index hash entry
        height_index := hmInsert db.height_index height hash
        metadata :=
          { db.metadata with
            entry_count := (db.metadata.entry_count + 1) % 2 ^ 64
            data_size := (db.metadata.data_size + data.length) % 2 ^ 64
            latest_height :=
              if db.metadata.latest_height < height then height
              else db.metadata.latest_height
            latest_hash :=
              if db.metadata.latest_height < height then hash
              else db.metadata.latest_hash
            genesis_hash :=
              if height = 0 then hash else db.metadata.genesis_hash } }
    (.ok (), if db.sync_on_write then db1.sync else db1)

/-- `Database::get`: hash map lookup, then an exact read of `size` bytes at
`offset` in the data file (`read_exact` fails when fewer bytes remain). -/
def Database.get (db : Database) (hash : Hash) : Except Error (List Nat) :=
  match db.hash_index hash with
  | none => .error .notFound
  | some entry =>
    let avail := db.data_file.drop entry.offset
    if entry.size ≤ avail.length then .ok (avail.take entry.size)
    else .error .ioFailure

/-- `Database::get_by_height`. -/
def Database.get_by_height (db : Database) (height : Nat) :
    Except Error (List Nat) :=
  match db.height_index height with
  | none => .error .notFound
  | some h => db.get h

/-- `Database::get_hash_by_height`. -/
def Database.get_hash_by_height (db : Database) (height : Nat) :
    Except Error Hash :=
  match db.height_index height with
  | none => .error .notFound
  | some h => .ok h

/-- `Database::contains`. -/
def Database.contains (db : Database) (hash : Hash) : Bool :=
  (db.hash_index hash).isSome

/-- `Database::contains_height`. -/
def Database.contains_height (db : Database) (height : Nat) : Bool :=
  (db.height_index height).isSome

/-- `Database::latest_height`. -/
def Database.latest_height (db : Database) : Nat :=
  db.metadata.latest_height

/-- `Database::latest_hash`. -/
def Database.latest_hash (db : Database) : Hash :=
  db.metadata.latest_hash

/-- `Database::genesis_hash`. -/
def Database.genesis_hash (db : Database) : Hash :=
  db.metadata.genesis_hash

/-- `Database::entry_count`. -/
def Database.entry_count (db : Database) : Nat :=
  db.metadata.entry_count

/-- Fuel-indexed version of the replay loop of
`Database::load_hash_index`; each loop iteration consumes at least 56
bytes, so `bytes.length` is always enough fuel. -/
def loadHashIndexAux (fuel : Nat) (acc : Hash → Option IndexEntry)
    (bytes : List Nat) : Hash → Option IndexEntry :=
  match fuel with
  | 0 => acc
  | fuel + 1 =>
    if 56 ≤ bytes.length then
      let entry := IndexEntry.from_bytes (bytes.take 56)
      loadHashIndexAux fuel
        (if entry.key = ZERO_HASH then acc else hmInsert acc entry.key entry)
        (bytes.drop 56)
    else acc

/-- The replay loop of `Database::load_hash_index`: reads 56-byte chunks
until a full chunk can no longer be read (a trailing partial chunk is
silently dropped), skipping entries whose key is the zero-hash sentinel,
inserting the rest with later records overwriting earlier ones. -/
def loadHashIndexFrom (acc : Hash → Option IndexEntry) (bytes : List Nat) :
    Hash → Option IndexEntry :=
  loadHashIndexAux bytes.length acc bytes

theorem loadHashIndexAux_fuel (f1 f2 : Nat) (acc : Hash → Option IndexEntry)
    (bytes : List Nat) (h1 : bytes.length ≤ f1 * 56) (h2 : bytes.length ≤ f2 * 56)
    (hp1 : 0 < f1 ∨ bytes.length < 56) (hp2 : 0 < f2 ∨ bytes.length < 56) :
    loadHashIndexAux f1 acc bytes = loadHashIndexAux f2 acc bytes := by
  induction f1 generalizing f2 acc bytes with
  | zero =>
    have hb : bytes.length < 56 := by omega
    cases f2 with
    | zero => rfl
    | succ f2 => simp [loadHashIndexAux, Nat.not_le.mpr hb]
  | succ f1 ih =>
    cases f2 with
    | zero =>
      have hb : bytes.length < 56 := by omega
      simp [loadHashIndexAux, Nat.not_le.mpr hb]
    | succ f2 =>
      simp only [loadHashIndexAux]
      by_cases hb : 56 ≤ bytes.length
      · simp only [if_pos hb]
        exact ih _ _ _ (by simp; omega) (by simp; omega)
          (by simp; omega) (by simp; omega)
      · simp [hb]

/-- The defining one-step unfolding of `loadHashIndexFrom`. -/
theorem loadHashIndexFrom_step (acc : Hash → Option IndexEntry)
    (bytes : List Nat) :
    loadHashIndexFrom acc bytes =
      if 56 ≤ bytes.length then
        (let entry := IndexEntry.from_bytes (bytes.take 56)
         loadHashIndexFrom
           (if entry.key = ZERO_HASH then acc else hmInsert acc entry.key entry)
           (bytes.drop 56))
      else acc := by
  by_cases hb : 56 ≤ bytes.length
  · simp only [if_pos hb]
    rw [loadHashIndexFrom]
    cases hf : bytes.length with
    | zero => omega
    | succ n =>
      simp only [loadHashIndexAux, hf, if_pos (hf ▸ hb)]
      rw [loadHashIndexFrom]
      exact loadHashIndexAux_fuel _ _ _ _ (by simp; omega) (by simp; omega)
        (by simp; omega) (by simp; omega)
  · simp only [if_neg hb]
    rw [loadHashIndexFrom]
    cases hf : bytes.length with
    | zero => rfl
    | succ n => simp only [loadHashIndexAux, if_neg hb]

/-- Fuel-indexed version of the replay loop of
`Database::load_height_index`. -/
def loadHeightIndexAux (fuel : Nat) (acc : Nat → Option Hash)
    (bytes : List Nat) : Nat → Option Hash :=
  match fuel with
  | 0 => acc
  | fuel + 1 =>
    if 40 ≤ bytes.length then
      let entry := HeightEntry.from_bytes (bytes.take 40)
      loadHeightIndexAux fuel
        (if entry.hash = ZERO_HASH then acc
         else hmInsert acc entry.height entry.hash)
        (bytes.drop 40)
    else acc

/-- The replay loop of `Database::load_height_index`: 40-byte chunks,
skipping entries whose hash is the zero-hash sentinel, last record wins. -/
def loadHeightIndexFrom (acc : Nat → Option Hash) (bytes : List Nat) :
    Nat → Option Hash :=
  loadHeightIndexAux bytes.length acc bytes

theorem loadHeightIndexAux_fuel (f1 f2 : Nat) (acc : Nat → Option Hash)
    (bytes : List Nat) (h1 : bytes.length ≤ f1 * 40) (h2 : bytes.length ≤ f2 * 40)
    (hp1 : 0 < f1 ∨ bytes.length < 40) (hp2 : 0 < f2 ∨ bytes.length < 40) :
    loadHeightIndexAux f1 acc bytes = loadHeightIndexAux f2 acc bytes := by
  induction f1 generalizing f2 acc bytes with
  | zero =>
    have hb : bytes.length < 40 := by omega
    cases f2 with
    | zero => rfl
    | succ f2 => simp [loadHeightIndexAux, Nat.not_le.mpr hb]
  | succ f1 ih =>
    cases f2 with
    | zero =>
      have hb : bytes.length < 40 := by omega
      simp [loadHeightIndexAux, Nat.not_le.mpr hb]
    | succ f2 =>
      simp only [loadHeightIndexAux]
      by_cases hb : 40 ≤ bytes.length
      · simp only [if_pos hb]
        exact ih _ _ _ (by simp; omega) (by simp; omega)
          (by simp; omega) (by simp; omega)
      · simp [hb]

/-- The defining one-step unfolding of `loadHeightIndexFrom`. -/
theorem loadHeightIndexFrom_step (acc : Nat → Option Hash)
    (bytes : List Nat) :
    loadHeightIndexFrom acc bytes =
      if 40 ≤ bytes.length then
        (let entry := HeightEntry.from_bytes (bytes.take 40)
         loadHeightIndexFrom
           (if entry.hash = ZERO_HASH then acc
            else hmInsert acc entry.height entry.hash)
           (bytes.drop 40))
      else acc := by
  by_cases hb : 40 ≤ bytes.length
  · simp only [if_pos hb]
    rw [loadHeightIndexFrom]
    cases hf : bytes.length with
    | zero => omega
    | succ n =>
      simp only [loadHeightIndexAux, hf, if_pos (hf ▸ hb)]
      rw [loadHeightIndexFrom]
      exact loadHeightIndexAux_fuel _ _ _ _ (by simp; omega) (by simp; omega)
        (by simp; omega) (by simp; omega)
  · simp only [if_neg hb]
    rw [loadHeightIndexFrom]
    cases hf : bytes.length with
    | zero => rfl
    | succ n => simp only [loadHeightIndexAux, if_neg hb]

/-- `Database::open` on the four files found on disk: decodes the metadata
record (reading exactly 96 bytes; a shorter file is a corruption error) and
replays both index logs to rebuild the in-memory maps. -/
def Database.open (sync : Bool)
    (meta_file index_file height_file data_file : List Nat) :
    Except Error Database :=
  if meta_file.length < 96 then
    .error (.corruption "Metadata file too small")
  else
    match Metadata.from_bytes (meta_file.take 96) with
    | .error e => .error e
    | .ok metadata =>
      .ok { sync_on_write := sync
            data_file := data_file
            index_file := index_file
            height_file := height_file
            meta_file := meta_file
            hash_index := loadHashIndexFrom hmEmpty index_file
            height_index := loadHeightIndexFrom hmEmpty height_file
            metadata := metadata }

/-- Close a database and reopen it from its own four files with the same
configuration (the reopen half of the reopen-fidelity scenario). -/
def Database.reopen (db : Database) : Except Error Database :=
  Database.open db.sync_on_write db.meta_file db.index_file db.height_file
    db.data_file

@[simp] theorem loadHashIndexFrom_nil (acc : Hash → Option IndexEntry) :
    loadHashIndexFrom acc [] = acc := by
  rw [loadHashIndexFrom_step]; simp

@[simp] theorem loadHeightIndexFrom_nil (acc : Nat → Option Hash) :
    loadHeightIndexFrom acc [] = acc := by
  rw [loadHeightIndexFrom_step]; simp

/-- Replaying a log made of whole 56-byte records followed by more bytes is
replaying the records and then the rest. -/
theorem loadHashIndexFrom_append :
    ∀ (n : Nat) (bytes extra : List Nat) (acc : Hash → Option IndexEntry),
      bytes.length = 56 * n →
      loadHashIndexFrom acc (bytes ++ extra) =
        loadHashIndexFrom (loadHashIndexFrom acc bytes) extra := by
  intro n
  induction n with
  | zero =>
    intro bytes extra acc h
    have hnil : bytes = [] := List.eq_nil_of_length_eq_zero (by omega)
    subst hnil
    simp
  | succ n ih =>
    intro bytes extra acc h
    obtain ⟨a, b, hab, ha⟩ : ∃ a b, bytes = a ++ b ∧ a.length = 56 :=
      ⟨bytes.take 56, bytes.drop 56, (List.take_append_drop 56 bytes).symm,
        by rw [List.length_take]; simp; omega⟩
    subst hab
    have hb : b.length = 56 * n := by simp at h; omega
    rw [List.append_assoc]
    rw [loadHashIndexFrom_step _ (a ++ (b ++ extra)),
      if_pos (by simp; omega)]
    rw [loadHashIndexFrom_step _ (a ++ b), if_pos (by simp; omega)]
    simp only [List.take_left' ha, List.drop_left' ha]
    exact ih b extra _ hb

/-- Replaying a log made of whole 40-byte records followed by more bytes is
replaying the records and then the rest. -/
theorem loadHeightIndexFrom_append :
    ∀ (n : Nat) (bytes extra : List Nat) (acc : Nat → Option Hash),
      bytes.length = 40 * n →
      loadHeightIndexFrom acc (bytes ++ extra) =
        loadHeightIndexFrom (loadHeightIndexFrom acc bytes) extra := by
  intro n
  induction n with
  | zero =>
    intro bytes extra acc h
    have hnil : bytes = [] := List.eq_nil_of_length_eq_zero (by omega)
    subst hnil
    simp
  | succ n ih =>
    intro bytes extra acc h
    obtain ⟨a, b, hab, ha⟩ : ∃ a b, bytes = a ++ b ∧ a.length = 40 :=
      ⟨bytes.take 40, bytes.drop 40, (List.take_append_drop 40 bytes).symm,
        by rw [List.length_take]; simp; omega⟩
    subst hab
    have hb : b.length = 40 * n := by simp at h; omega
    rw [List.append_assoc]
    rw [loadHeightIndexFrom_step _ (a ++ (b ++ extra)),
      if_pos (by simp; omega)]
    rw [loadHeightIndexFrom_step _ (a ++ b), if_pos (by simp; omega)]
    simp only [List.take_left' ha, List.drop_left' ha]
    exact ih b extra _ hb

/-- Replaying a single whole 56-byte record. -/
theorem loadHashIndexFrom_single (acc : Hash → Option IndexEntry)
    (chunk : List Nat) (hc : chunk.length = 56) :
    loadHashIndexFrom acc chunk =
      (if (IndexEntry.from_bytes chunk).key = ZERO_HASH then acc
       else hmInsert acc (IndexEntry.from_bytes chunk).key
         (IndexEntry.from_bytes chunk)) := by
  rw [loadHashIndexFrom_step, if_pos (by omega : 56 ≤ chunk.length)]
  rw [show chunk.take 56 = chunk from List.take_of_length_le (by omega)]
  rw [show chunk.drop 56 = [] from List.drop_eq_nil_of_le (by omega)]
  simp only [loadHashIndexFrom_nil]

/-- Replaying a single whole 40-byte record. -/
theorem loadHeightIndexFrom_single (acc : Nat → Option Hash)
    (chunk : List Nat) (hc : chunk.length = 40) :
    loadHeightIndexFrom acc chunk =
      (if (HeightEntry.from_bytes chunk).hash = ZERO_HASH then acc
       else hmInsert acc (HeightEntry.from_bytes chunk).height
         (HeightEntry.from_bytes chunk).hash) := by
  rw [loadHeightIndexFrom_step, if_pos (by omega : 40 ≤ chunk.length)]
  rw [show chunk.take 40 = chunk from List.take_of_length_le (by omega)]
  rw [show chunk.drop 40 = [] from List.drop_eq_nil_of_le (by omega)]
  simp only [loadHeightIndexFrom_nil]

/-- The invariant tying a live `Database` to its own log files: the
in-memory maps are exactly what replaying the logs rebuilds, the logs are
whole sequences of fixed-size records, and the metadata aggregate is in the
range the Rust types and the height guard maintain. -/
def GoodState (db : Database) : Prop :=
  loadHashIndexFrom hmEmpty db.index_file = db.hash_index ∧
  loadHeightIndexFrom hmEmpty db.height_file = db.height_index ∧
  (∃ n, db.index_file.length = 56 * n) ∧
  (∃ n, db.height_file.length = 40 * n) ∧
  db.metadata.magic = MAGIC ∧
  db.metadata.version = VERSION ∧
  db.metadata.entry_count < 2 ^ 64 ∧
  db.metadata.data_size < 2 ^ 64 ∧
  db.metadata.latest_height ≤ MAX_REASONABLE_HEIGHT ∧
  db.metadata.latest_hash.length = 32 ∧
  db.metadata.genesis_hash.length = 32

theorem goodState_create (sync : Bool) : GoodState (Database.create sync) := by
  refine ⟨?_, ?_, ⟨0, rfl⟩, ⟨0, rfl⟩, rfl, rfl, ?_, ?_, ?_, ?_, ?_⟩ <;>
    simp [Database.create, Metadata.default, MAX_REASONABLE_HEIGHT, ZERO_HASH]

/-- The index entry a fresh (non-deduplicated) `put` constructs. -/
def putEntry (db : Database) (hash : Hash) (height : Nat)
    (data : List Nat) : IndexEntry :=
  { key := hash, offset := db.data_file.length,
    size := data.length % 2 ^ 32, height := height, flags := 0 }

/-- The state a fresh (non-deduplicated) `put` builds before the optional
sync. -/
def putFreshState (db : Database) (hash : Hash) (height : Nat)
    (data : List Nat) : Database :=
  { db with
    data_file := db.data_file ++ data
    index_file := db.index_file ++ (putEntry db hash height data).to_bytes
    height_file := db.height_file ++
      (HeightEntry.mk height hash).to_bytes
    hash_index := hmInsert db.hash_index hash (putEntry db hash height data)
    height_index := hmInsert db.height_index height hash
    metadata :=
      { db.metadata with
        entry_count := (db.metadata.entry_count + 1) % 2 ^ 64
        data_size := (db.metadata.data_size + data.length) % 2 ^ 64
        latest_height :=
          if db.metadata.latest_height < height then height
          else db.metadata.latest_height
        latest_hash :=
          if db.metadata.latest_height < height then hash
          else db.metadata.latest_hash
        genesis_hash :=
          if height = 0 then hash else db.metadata.genesis_hash } }

/-- `put` on a not-yet-stored hash with an in-range height takes the write
path and returns the fresh state (synced when so configured). -/
theorem Database.put_fresh (db : Database) (h : Hash) (ht : Nat)
    (data : List Nat) (hht : ht ≤ MAX_REASONABLE_HEIGHT)
    (hfresh : db.hash_index h = none) :
    db.put h ht data =
      (.ok (),
        if db.sync_on_write then (putFreshState db h ht data).sync
        else putFreshState db h ht data) := by
  rw [Database.put, if_neg (by omega), if_neg (by simp [hfresh])]
  rfl

/-- `put` on an already-stored hash with an in-range height is a successful
no-op. -/
theorem Database.put_dedup (db : Database) (h : Hash) (ht : Nat)
    (data : List Nat) (hht : ht ≤ MAX_REASONABLE_HEIGHT)
    (hsome : (db.hash_index h).isSome) :
    db.put h ht data = (.ok (), db) := by
  rw [Database.put, if_neg (by omega), if_pos hsome]

/-- `sync` changes only the metadata file, so it preserves `GoodState`. -/
theorem goodState_sync (db : Database) (hg : GoodState db) :
    GoodState db.sync := hg

/-- A guarded `put` by a valid non-sentinel hash preserves `GoodState`,
succeeds, grows the data file by at most the payload, and keeps the
configuration. -/
theorem goodState_put (db : Database) (h : Hash) (ht : Nat)
    (data : List Nat) (hg : GoodState db) (hh : h.length = 32)
    (hz : h ≠ ZERO_HASH) (hht : ht ≤ MAX_REASONABLE_HEIGHT)
    (hdf : db.data_file.length < 2 ^ 64) :
    GoodState (db.put h ht data).2 ∧ (db.put h ht data).1 = .ok () ∧
      (db.put h ht data).2.data_file.length ≤
        db.data_file.length + data.length ∧
      (db.put h ht data).2.sync_on_write = db.sync_on_write := by
  obtain ⟨hmap, hhmap, ⟨n, hn⟩, ⟨m, hm⟩, hmg, hver, hec, hds, hlh, hlha, hgha⟩ := hg
  cases hsome : db.hash_index h with
  | some e =>
    rw [Database.put_dedup db h ht data hht (by simp [hsome])]
    refine ⟨⟨hmap, hhmap, ⟨n, hn⟩, ⟨m, hm⟩, hmg, hver, hec, hds, hlh, hlha, hgha⟩,
      rfl, ?_, rfl⟩
    show db.data_file.length ≤ db.data_file.length + data.length
    omega
  | none =>
    rw [Database.put_fresh db h ht data hht hsome]
    have hmax64 : MAX_REASONABLE_HEIGHT < 2 ^ 64 := by
      rw [MAX_REASONABLE_HEIGHT]; norm_num
    have hentry : (putEntry db h ht data).Valid := by
      refine ⟨hh, hdf, Nat.mod_lt _ (by norm_num), ?_, ?_⟩
      · show ht < 2 ^ 64
        omega
      · show (0 : Nat) < 2 ^ 32
        norm_num
    have hhentry : (HeightEntry.mk ht h).Valid := by
      refine ⟨?_, hh⟩
      show ht < 2 ^ 64
      omega
    have hchunk : (putEntry db h ht data).to_bytes.length = 56 :=
      indexEntry_to_bytes_length _ hh
    have hhchunk : (HeightEntry.mk ht h).to_bytes.length = 40 :=
      heightEntry_to_bytes_length _ hh
    have hgood1 : GoodState (putFreshState db h ht data) := by
      refine ⟨?_, ?_, ⟨n + 1, ?_⟩, ⟨m + 1, ?_⟩, hmg, hver, ?_, ?_, ?_, ?_, ?_⟩
      · show loadHashIndexFrom hmEmpty
          (db.index_file ++ (putEntry db h ht data).to_bytes) = _
        rw [loadHashIndexFrom_append n db.index_file _ hmEmpty hn, hmap,
          loadHashIndexFrom_single _ _ hchunk,
          indexEntry_from_to _ hentry]
        rw [if_neg (by simp [putEntry, hz])]
        rfl
      · show loadHeightIndexFrom hmEmpty
          (db.height_file ++ (HeightEntry.mk ht h).to_bytes) = _
        rw [loadHeightIndexFrom_append m db.height_file _ hmEmpty hm, hhmap,
          loadHeightIndexFrom_single _ _ hhchunk,
          heightEntry_from_to _ hhentry]
        rw [if_neg (by simp [hz])]
        rfl
      · show (db.index_file ++ (putEntry db h ht data).to_bytes).length = _
        simp [hchunk, hn]; ring
      · show (db.height_file ++ (HeightEntry.mk ht h).to_bytes).length = _
        simp [hhchunk, hm]; ring
      · exact Nat.mod_lt _ (by norm_num)
      · exact Nat.mod_lt _ (by norm_num)
      · show (if db.metadata.latest_height < ht then ht
          else db.metadata.latest_height) ≤ _
        split <;> omega
      · show (if db.metadata.latest_height < ht then h
          else db.metadata.latest_hash).length = 32
        split <;> simp [hh, hlha]
      · show (if ht = 0 then h else db.metadata.genesis_hash).length = 32
        split <;> simp [hh, hgha]
    have hlen1 : (putFreshState db h ht data).data_file.length =
        db.data_file.length + data.length := by
      simp [putFreshState]
    by_cases hcfg : db.sync_on_write = true
    · rw [if_pos hcfg]
      refine ⟨goodState_sync _ hgood1, rfl, ?_, rfl⟩
      show (putFreshState db h ht data).data_file.length ≤
        db.data_file.length + data.length
      omega
    · rw [if_neg hcfg]
      refine ⟨hgood1, rfl, ?_, rfl⟩
      show (putFreshState db h ht data).data_file.length ≤
        db.data_file.length + data.length
      omega

/-- A sequence of `put` calls, threading the mutable database and ignoring
the per-call results. -/
def putSeq (db : Database) (ops : List (Hash × Nat × List Nat)) : Database :=
  ops.foldl (fun s op => (s.put op.1 op.2.1 op.2.2).2) db

/-- Total payload length of a sequence of puts. -/
def totalLen (ops : List (Hash × Nat × List Nat)) : Nat :=
  (ops.map (fun op => op.2.2.length)).sum

/-- All hashes in the sequence are 32 bytes, none is the zero sentinel, and
all heights are within the sanity bound (so each put succeeds). -/
def ValidOps (ops : List (Hash × Nat × List Nat)) : Prop :=
  ∀ op ∈ ops, op.1.length = 32 ∧ op.1 ≠ ZERO_HASH ∧
    op.2.1 ≤ MAX_REASONABLE_HEIGHT

instance (ops : List (Hash × Nat × List Nat)) : Decidable (ValidOps ops) :=
  List.decidableBAll _ _

/-- Every put in the sequence returns `Ok(())` on the state left by its
predecessors. -/
def AllPutsSucceed : Database → List (Hash × Nat × List Nat) → Prop
  | _, [] => True
  | db, op :: rest =>
    (db.put op.1 op.2.1 op.2.2).1 = .ok () ∧
      AllPutsSucceed (db.put op.1 op.2.1 op.2.2).2 rest

@[simp] theorem totalLen_nil : totalLen [] = 0 := rfl

theorem totalLen_cons (op : Hash × Nat × List Nat)
    (ops : List (Hash × Nat × List Nat)) :
    totalLen (op :: ops) = op.2.2.length + totalLen ops := by
  simp [totalLen]

/-- Folding a valid put sequence from a good state succeeds entirely,
preserves the invariant, and grows the data file by at most the total
payload length. -/
theorem goodState_putSeq :
    ∀ (ops : List (Hash × Nat × List Nat)) (db : Database), GoodState db →
      ValidOps ops →
      db.data_file.length + totalLen ops < 2 ^ 64 →
      GoodState (putSeq db ops) ∧ AllPutsSucceed db ops ∧
        (putSeq db ops).data_file.length ≤
          db.data_file.length + totalLen ops ∧
        (putSeq db ops).sync_on_write = db.sync_on_write := by
  intro ops
  induction ops with
  | nil =>
    intro db hg hv hlen
    exact ⟨hg, trivial, by simp [putSeq], rfl⟩
  | cons op rest ih =>
    intro db hg hv hlen
    obtain ⟨h, ht, data⟩ := op
    rw [totalLen_cons] at hlen
    have hlen' : db.data_file.length + (data.length + totalLen rest) <
        2 ^ 64 := by simpa using hlen
    have hop := hv _ (List.mem_cons_self _ _)
    have hstep := goodState_put db h ht data hg hop.1 hop.2.1 hop.2.2
      (by omega)
    have hrest := ih (db.put h ht data).2 hstep.1
      (fun op hmem => hv _ (List.mem_cons_of_mem _ hmem))
      (by have := hstep.2.2.1; omega)
    refine ⟨?_, ⟨hstep.2.1, hrest.2.1⟩, ?_, ?_⟩
    · show GoodState (putSeq (db.put h ht data).2 rest)
      exact hrest.1
    · show (putSeq (db.put h ht data).2 rest).data_file.length ≤
        db.data_file.length + (data.length + totalLen rest)
      have h1 := hrest.2.2.1
      have h2 := hstep.2.2.1
      omega
    · show (putSeq (db.put h ht data).2 rest).sync_on_write =
        db.sync_on_write
      rw [hrest.2.2.2, hstep.2.2.2]

/-- Opening the four files of a good, synced database rebuilds exactly the
same state. -/
theorem open_sync (db : Database) (hg : GoodState db) :
    Database.open db.sync_on_write db.metadata.to_bytes db.index_file
      db.height_file db.data_file = .ok db.sync := by
  obtain ⟨hmap, hhmap, _, _, hmg, hver, hec, hds, hlh, hlha, hgha⟩ := hg
  have hmax64 : MAX_REASONABLE_HEIGHT < 2 ^ 64 := by
    rw [MAX_REASONABLE_HEIGHT]; norm_num
  have hmv : db.metadata.Valid :=
    ⟨by rw [hmg]; rfl, by rw [hver, VERSION]; norm_num, hec, hds, by omega,
      hlha, hgha⟩
  have hlen : db.metadata.to_bytes.length = 96 :=
    metadata_to_bytes_length _ (by rw [hmg]; rfl) hlha hgha
  rw [Database.open, if_neg (by omega)]
  rw [show db.metadata.to_bytes.take 96 = db.metadata.to_bytes from
    List.take_of_length_le (by omega)]
  rw [metadata_from_to _ hmv hmg hlh]
  rw [hmap, hhmap]
  rfl

@[simp] theorem sync_hash_index (db : Database) :
    db.sync.hash_index = db.hash_index := rfl

@[simp] theorem sync_height_index (db : Database) :
    db.sync.height_index = db.height_index := rfl

@[simp] theorem sync_data_file (db : Database) :
    db.sync.data_file = db.data_file := rfl

@[simp] theorem sync_metadata (db : Database) :
    db.sync.metadata = db.metadata := rfl

/-- The second component of a fresh `put`, with the optional sync folded
away field-by-field (sync only changes the metadata file). -/
theorem put_fresh_fields (db : Database) (h : Hash) (ht : Nat)
    (data : List Nat) (hht : ht ≤ MAX_REASONABLE_HEIGHT)
    (hfresh : db.hash_index h = none) :
    (db.put h ht data).2.hash_index =
      hmInsert db.hash_index h (putEntry db h ht data) ∧
    (db.put h ht data).2.height_index = hmInsert db.height_index ht h ∧
    (db.put h ht data).2.data_file = db.data_file ++ data ∧
    (db.put h ht data).2.metadata = (putFreshState db h ht data).metadata := by
  rw [Database.put_fresh db h ht data hht hfresh]
  by_cases hc : db.sync_on_write = true
  · rw [if_pos hc]; exact ⟨rfl, rfl, rfl, rfl⟩
  · rw [if_neg hc]; exact ⟨rfl, rfl, rfl, rfl⟩

/-- What `get` returns for the hash just written by a fresh `put`: the
first `data.len() % 2^32` bytes of the payload (the size field is the
payload length truncated to `u32`). -/
theorem Database.get_put_fresh (db : Database) (h : Hash) (ht : Nat)
    (data : List Nat) (hht : ht ≤ MAX_REASONABLE_HEIGHT)
    (hfresh : db.hash_index h = none) :
    (db.put h ht data).2.get h = .ok (data.take (data.length % 2 ^ 32)) := by
  obtain ⟨hmapeq, _, hdf, _⟩ := put_fresh_fields db h ht data hht hfresh
  rw [Database.get, hmapeq, hmInsert_self, hdf]
  show (if (putEntry db h ht data).size ≤
      ((db.data_file ++ data).drop (putEntry db h ht data).offset).length
    then Except.ok (((db.data_file ++ data).drop
      (putEntry db h ht data).offset).take (putEntry db h ht data).size)
    else Except.error Error.ioFailure) = _
  rw [show (putEntry db h ht data).offset = db.data_file.length from rfl,
    List.drop_left]
  exact if_pos (Nat.mod_le _ _)

/-- A height that is in range whenever a `put` reported success. -/
theorem put_ok_height (db : Database) (h : Hash) (ht : Nat) (data : List Nat)
    (hok : (db.put h ht data).1 = .ok ()) : ht ≤ MAX_REASONABLE_HEIGHT := by
  by_contra hc
  rw [Database.put, if_pos (by omega)] at hok
  simp at hok

/-- Sample 32-byte hash, all bytes 1. -/
def hashOne : Hash := List.replicate 32 1

/-- Sample 32-byte hash, all bytes 2. -/
def hashTwo : Hash := List.replicate 32 2

/-- A payload of exactly `2 ^ 32` bytes, at which the `as u32` size cast
wraps to zero. -/
def bigPayload : List Nat := List.replicate (2 ^ 32) 7

/-- C1, counterexample: `put` succeeds on a fresh database with a payload
of `2 ^ 32` bytes, but `get` then returns the empty byte string, not the
payload — the stored size field is the payload length truncated to `u32`,
so the claim's "get(h) returns exactly data" fails for payloads of at
least `2 ^ 32` bytes. -/
theorem put_get_identity_cex :
    ((Database.create true).put hashOne 0 bigPayload).1 = .ok () ∧
      ((Database.create true).put hashOne 0 bigPayload).2.get hashOne =
        .ok [] ∧
      ((Database.create true).put hashOne 0 bigPayload).2.get hashOne ≠
        .ok bigPayload := by
  have hfresh : (Database.create true).hash_index hashOne = none := rfl
  have hht : (0 : Nat) ≤ MAX_REASONABLE_HEIGHT := by
    rw [MAX_REASONABLE_HEIGHT]; norm_num
  have hbig : bigPayload.length = 2 ^ 32 := by
    rw [bigPayload, List.length_replicate]
  have hget : ((Database.create true).put hashOne 0 bigPayload).2.get hashOne
      = .ok [] := by
    rw [Database.get_put_fresh _ _ _ _ hht hfresh]
    rw [hbig, Nat.mod_self, List.take_zero]
  refine ⟨?_, hget, ?_⟩
  · rw [Database.put_fresh _ _ _ _ hht hfresh]
  · rw [hget]
    intro hc
    rw [Except.ok.injEq] at hc
    have hlen0 : bigPayload.length = 0 := by rw [← hc]; rfl
    rw [hbig] at hlen0
    norm_num at hlen0

/-- C1 (amended: the payload must be shorter than `2 ^ 32` bytes): if
`put(h, height, data)` succeeds on a database in which `h` was not
previously stored, then `get(h)` returns exactly `data` and `contains(h)`
is true. -/
theorem put_get_identity (db : Database) (h : Hash) (ht : Nat)
    (data : List Nat) (hfresh : db.hash_index h = none)
    (hlen : data.length < 2 ^ 32)
    (hok : (db.put h ht data).1 = .ok ()) :
    (db.put h ht data).2.get h = .ok data ∧
      (db.put h ht data).2.contains h = true := by
  have hht := put_ok_height db h ht data hok
  refine ⟨?_, ?_⟩
  · rw [Database.get_put_fresh db h ht data hht hfresh,
      Nat.mod_eq_of_lt hlen, List.take_length]
  · obtain ⟨hmapeq, _, _, _⟩ := put_fresh_fields db h ht data hht hfresh
    rw [Database.contains, hmapeq, hmInsert_self]
    rfl

/-- Witness for `put_get_identity` at a concrete small input. -/
theorem put_get_identity_witness :
    ((Database.create true).put hashOne 4 [9, 8]).2.get hashOne =
        .ok [9, 8] ∧
      ((Database.create true).put hashOne 4 [9, 8]).2.contains hashOne =
        true :=
  put_get_identity (Database.create true) hashOne 4 [9, 8] (by decide)
    (by decide) (by decide)

/-- C2, counterexample: the height guard runs before the deduplication
check, so a second `put` with the same hash but a height above
`MAX_REASONABLE_HEIGHT` returns `HeightTooLarge`, not success — the claim's
"regardless of whether height_any differs from height" fails. -/
theorem dedup_idempotence_cex :
    ((Database.create true).put hashOne 0 [1]).1 = .ok () ∧
      (((Database.create true).put hashOne 0 [1]).2.put hashOne 10000001
          [2]).1 = .error (.heightTooLarge 10000001) := by
  decide

/-- C2 (amended: the second height must also be within
`MAX_REASONABLE_HEIGHT`, the first put must be a fresh store, and the
first payload shorter than `2 ^ 32` bytes): a second `put` with the same
hash returns success, performs no mutation at all (the state is returned
unchanged), and leaves `get(h) = A` and the entry count unchanged,
regardless of the second payload and (in-range) second height. -/
theorem dedup_idempotence (db : Database) (h : Hash) (ht : Nat)
    (A : List Nat) (ht2 : Nat) (B : List Nat)
    (hfresh : db.hash_index h = none) (hlenA : A.length < 2 ^ 32)
    (hok1 : (db.put h ht A).1 = .ok ())
    (hht2 : ht2 ≤ MAX_REASONABLE_HEIGHT) :
    (db.put h ht A).2.put h ht2 B = (.ok (), (db.put h ht A).2) ∧
      ((db.put h ht A).2.put h ht2 B).2.get h = .ok A ∧
      ((db.put h ht A).2.put h ht2 B).2.entry_count =
        (db.put h ht A).2.entry_count := by
  have hht := put_ok_height db h ht A hok1
  obtain ⟨hmapeq, _, _, _⟩ := put_fresh_fields db h ht A hht hfresh
  have hsome : ((db.put h ht A).2.hash_index h).isSome := by
    rw [hmapeq, hmInsert_self]; rfl
  have hd := Database.put_dedup _ h ht2 B hht2 hsome
  refine ⟨hd, ?_, ?_⟩
  · rw [hd]
    show (db.put h ht A).2.get h = .ok A
    rw [Database.get_put_fresh db h ht A hht hfresh,
      Nat.mod_eq_of_lt hlenA, List.take_length]
  · rw [hd]

/-- Witness for `dedup_idempotence` at a concrete small input. -/
theorem dedup_idempotence_witness :
    ((Database.create true).put hashOne 0 [1]).2.put hashOne 7 [2] =
        (.ok (), ((Database.create true).put hashOne 0 [1]).2) ∧
      (((Database.create true).put hashOne 0 [1]).2.put hashOne 7 [2]).2.get
          hashOne = .ok [1] ∧
      (((Database.create true).put hashOne 0 [1]).2.put hashOne 7
          [2]).2.entry_count =
        ((Database.create true).put hashOne 0 [1]).2.entry_count :=
  dedup_idempotence (Database.create true) hashOne 0 [1] 7 [2] (by decide)
    (by decide) (by decide) (by decide)

/-- C3: a `put` whose height exceeds `MAX_REASONABLE_HEIGHT` fails with
`HeightTooLarge` and returns the state completely unchanged — same entry
count, data log, both index logs, both in-memory maps, and the whole
metadata aggregate. -/
theorem height_guard (db : Database) (h : Hash) (ht : Nat) (data : List Nat)
    (hht : MAX_REASONABLE_HEIGHT < ht) :
    db.put h ht data = (.error (.heightTooLarge ht), db) := by
  rw [Database.put, if_pos (by omega)]

/-- Witness for `height_guard` at a concrete input. -/
theorem height_guard_witness :
    (Database.create true).put hashOne 10000001 [1] =
      (.error (.heightTooLarge 10000001), Database.create true) :=
  height_guard (Database.create true) hashOne 10000001 [1] (by decide)

/-- C4: decode is a left inverse of encode for index entries, height
entries, and (validated) metadata records; metadata decode rejects a bad
magic with a Corruption error and, when the magic matches, rejects a
decoded latest height above `MAX_REASONABLE_HEIGHT` with `HeightTooLarge`. -/
theorem codec_roundtrip :
    (∀ e : IndexEntry, e.Valid → IndexEntry.from_bytes e.to_bytes = e) ∧
    (∀ e : HeightEntry, e.Valid → HeightEntry.from_bytes e.to_bytes = e) ∧
    (∀ m : Metadata, m.Valid → m.magic = MAGIC →
      m.latest_height ≤ MAX_REASONABLE_HEIGHT →
      Metadata.from_bytes m.to_bytes = .ok m) ∧
    (∀ l : List Nat, l.length = 96 → l.take 4 ≠ MAGIC →
      Metadata.from_bytes l = .error (.corruption "Invalid magic bytes")) ∧
    (∀ l : List Nat, l.length = 96 → l.take 4 = MAGIC →
      MAX_REASONABLE_HEIGHT < (Metadata.decodeRaw l).latest_height →
      Metadata.from_bytes l =
        .error (.heightTooLarge (Metadata.decodeRaw l).latest_height)) := by
  refine ⟨indexEntry_from_to, heightEntry_from_to, metadata_from_to,
    ?_, ?_⟩
  · intro l _ hm
    rw [Metadata.from_bytes, if_pos hm]
  · intro l _ hm hh
    rw [Metadata.from_bytes, if_neg (by simp [hm]), if_pos (by omega)]

/-- Sample index entry (the values used by the repository's own
round-trip test). -/
def sampleIndexEntry : IndexEntry :=
  { key := hashOne, offset := 12345, size := 1000, height := 42, flags := 0 }

/-- Sample height entry. -/
def sampleHeightEntry : HeightEntry := { height := 42, hash := hashOne }

/-- Sample metadata record. -/
def sampleMetadata : Metadata :=
  { magic := MAGIC, version := VERSION, entry_count := 100,
    data_size := 50000, latest_height := 42, latest_hash := hashOne,
    genesis_hash := hashTwo }

/-- 96 bytes that do not start with the magic constant. -/
def badMagicBytes : List Nat := List.replicate 96 9

/-- 96 bytes with a good magic but an absurd latest height
(eight 0xFF bytes at offset 24). -/
def badHeightBytes : List Nat :=
  MAGIC ++ List.replicate 20 0 ++ List.replicate 8 255 ++
    List.replicate 64 0

/-- Witness for `codec_roundtrip` at concrete records. -/
theorem codec_roundtrip_witness :
    IndexEntry.from_bytes sampleIndexEntry.to_bytes = sampleIndexEntry ∧
      HeightEntry.from_bytes sampleHeightEntry.to_bytes =
        sampleHeightEntry ∧
      Metadata.from_bytes sampleMetadata.to_bytes = .ok sampleMetadata ∧
      Metadata.from_bytes badMagicBytes =
        .error (.corruption "Invalid magic bytes") ∧
      Metadata.from_bytes badHeightBytes =
        .error (.heightTooLarge
          (Metadata.decodeRaw badHeightBytes).latest_height) :=
  ⟨codec_roundtrip.1 _ (by decide), codec_roundtrip.2.1 _ (by decide),
    codec_roundtrip.2.2.1 _ (by decide) (by decide) (by decide),
    codec_roundtrip.2.2.2.1 _ (by decide) (by decide),
    codec_roundtrip.2.2.2.2 _ (by decide) (by decide) (by decide)⟩

/-- The replay loop never stores anything under the zero-hash key: every
record whose key is the sentinel is skipped, and inserting under any other
key leaves the sentinel slot untouched. -/
theorem loadHashIndexAux_zero (fuel : Nat) :
    ∀ (acc : Hash → Option IndexEntry) (bytes : List Nat),
      loadHashIndexAux fuel acc bytes ZERO_HASH = acc ZERO_HASH := by
  induction fuel with
  | zero => intro acc bytes; rfl
  | succ f ih =>
    intro acc bytes
    rw [loadHashIndexAux]
    by_cases hb : 56 ≤ bytes.length
    · rw [if_pos hb, ih]
      by_cases hk : (IndexEntry.from_bytes (bytes.take 56)).key = ZERO_HASH
      · rw [if_pos hk]
      · rw [if_neg hk, hmInsert_other _ _ _ _ (fun hc => hk hc.symm)]
    · rw [if_neg hb]

theorem loadHashIndexFrom_zero (acc : Hash → Option IndexEntry)
    (bytes : List Nat) :
    loadHashIndexFrom acc bytes ZERO_HASH = acc ZERO_HASH :=
  loadHashIndexAux_zero bytes.length acc bytes

/-- C7, counterexample: `put` performs no zero-hash guard, so a put whose
hash argument is the zero sentinel succeeds and makes `contains(ZERO_HASH)`
true in the live session — the claimed invariant fails in a state reachable
by public operations. -/
theorem zero_hash_reserved_cex :
    ((Database.create true).put ZERO_HASH 0 [1]).1 = .ok () ∧
      ((Database.create true).put ZERO_HASH 0 [1]).2.contains ZERO_HASH =
        true := by
  decide

/-- C7 (amended): `put` itself does not enforce the sentinel — a zero-hash
put does enter the in-memory map for the current session — but the replay
performed by `open` skips zero-key records, so in every state produced by
`open` (before further puts), `contains(ZERO_HASH)` is false and
`get(ZERO_HASH)` fails with NotFound. -/
theorem zero_hash_never_rebuilt (sync : Bool)
    (mf xf hf df : List Nat) :
    match Database.open sync mf xf hf df with
    | .ok db => db.contains ZERO_HASH = false ∧
        db.get ZERO_HASH = .error .notFound
    | .error _ => True := by
  cases hop : Database.open sync mf xf hf df with
  | error e => trivial
  | ok db =>
    have hdb : db.hash_index = loadHashIndexFrom hmEmpty xf := by
      rw [Database.open] at hop
      by_cases h1 : mf.length < 96
      · rw [if_pos h1] at hop; cases hop
      · rw [if_neg h1] at hop
        cases hm : Metadata.from_bytes (mf.take 96) with
        | error e => rw [hm] at hop; cases hop
        | ok meta =>
          rw [hm] at hop
          cases hop
          rfl
    have hz : db.hash_index ZERO_HASH = none := by
      rw [hdb, loadHashIndexFrom_zero]
      rfl
    constructor
    · rw [Database.contains, hz]
      rfl
    · rw [Database.get, hz]

/-- C8, counterexample: deduplication is per-hash, not per-height, so a
second height-0 put with a distinct hash is not short-circuited and
overwrites the genesis hash field — the genesis update is reachable more
than once per database. -/
theorem genesis_once_cex :
    ((Database.create true).put hashOne 0 [1]).1 = .ok () ∧
      (((Database.create true).put hashOne 0 [1]).2.put hashTwo 0 [2]).1 =
        .ok () ∧
      (((Database.create true).put hashOne 0 [1]).2.put hashTwo 0
          [2]).2.genesis_hash = hashTwo ∧
      hashTwo ≠ hashOne := by
  decide

/-- C8 (amended): every fresh (non-deduplicated) put at height 0 sets the
genesis hash to its own hash; puts at nonzero heights never change it; and
a put whose hash is already stored is a no-op — so the genesis hash can
change again only through a height-0 put with a distinct, not-yet-stored
hash, because deduplication short-circuits per hash, not per height. -/
theorem genesis_update :
    (∀ (db : Database) (h : Hash) (ht : Nat) (data : List Nat), ht ≠ 0 →
      (db.put h ht data).2.genesis_hash = db.genesis_hash) ∧
    (∀ (db : Database) (h : Hash) (data : List Nat),
      db.hash_index h = none →
      (db.put h 0 data).2.genesis_hash = h) ∧
    (∀ (db : Database) (h : Hash) (ht : Nat) (data : List Nat),
      ht ≤ MAX_REASONABLE_HEIGHT → (db.hash_index h).isSome →
      db.put h ht data = (.ok (), db)) := by
  refine ⟨?_, ?_, Database.put_dedup⟩
  · intro db h ht data hne
    by_cases hht : ht ≤ MAX_REASONABLE_HEIGHT
    · cases hsome : db.hash_index h with
      | some e =>
        rw [Database.put_dedup db h ht data hht (by rw [hsome]; rfl)]
      | none =>
        obtain ⟨_, _, _, hmeta⟩ := put_fresh_fields db h ht data hht hsome
        rw [Database.genesis_hash, hmeta]
        show (if ht = 0 then h else db.metadata.genesis_hash) =
          db.metadata.genesis_hash
        rw [if_neg hne]
    · rw [Database.put, if_pos (by omega)]
  · intro db h data hfresh
    obtain ⟨_, _, _, hmeta⟩ := put_fresh_fields db h 0 data
      (by rw [MAX_REASONABLE_HEIGHT]; norm_num) hfresh
    rw [Database.genesis_hash, hmeta]
    show (if (0 : Nat) = 0 then h else db.metadata.genesis_hash) = h
    rw [if_pos rfl]

/-- Witness for `genesis_update` at concrete inputs. -/
theorem genesis_update_witness :
    (((Database.create true).put hashOne 3 [1]).2.genesis_hash =
        (Database.create true).genesis_hash) ∧
      (((Database.create true).put hashOne 0 [1]).2.genesis_hash =
        hashOne) ∧
      ((Database.create true).put hashOne 0 [1]).2.put hashOne 0 [2] =
        (.ok (), ((Database.create true).put hashOne 0 [1]).2) :=
  ⟨genesis_update.1 (Database.create true) hashOne 3 [1] (by decide),
    genesis_update.2.1 (Database.create true) hashOne [1] (by decide),
    genesis_update.2.2 _ hashOne 0 [2] (by decide) (by
      have := put_fresh_fields (Database.create true) hashOne 0 [1]
        (by rw [MAX_REASONABLE_HEIGHT]; norm_num) (by decide)
      rw [this.1, hmInsert_self]
      rfl)⟩

/-- C9: on a freshly created database a height-0 put succeeds, sets the
genesis hash, and leaves the latest-hash aggregate at the all-zero sentinel
with latest height 0; in general a put whose height is not strictly greater
than the current latest height never updates the latest-hash/latest-height
aggregate. -/
theorem genesis_latest_sentinel :
    (∀ (sync : Bool) (h : Hash) (data : List Nat),
      ((Database.create sync).put h 0 data).1 = .ok () ∧
      ((Database.create sync).put h 0 data).2.latest_hash = ZERO_HASH ∧
      ((Database.create sync).put h 0 data).2.latest_height = 0 ∧
      ((Database.create sync).put h 0 data).2.genesis_hash = h) ∧
    (∀ (db : Database) (h : Hash) (ht : Nat) (data : List Nat),
      ht ≤ db.metadata.latest_height →
      (db.put h ht data).2.latest_hash = db.latest_hash ∧
      (db.put h ht data).2.latest_height = db.latest_height) := by
  constructor
  · intro sync h data
    have hfresh : (Database.create sync).hash_index h = none := rfl
    have h0 : (0 : Nat) ≤ MAX_REASONABLE_HEIGHT := by
      rw [MAX_REASONABLE_HEIGHT]; norm_num
    obtain ⟨_, _, _, hmeta⟩ := put_fresh_fields (Database.create sync) h 0
      data h0 hfresh
    refine ⟨?_, ?_, ?_, ?_⟩
    · rw [Database.put_fresh _ _ _ _ h0 hfresh]
    · rw [Database.latest_hash, hmeta]
      show (if (Database.create sync).metadata.latest_height < 0 then h
        else (Database.create sync).metadata.latest_hash) = ZERO_HASH
      rw [if_neg (by omega)]
      rfl
    · rw [Database.latest_height, hmeta]
      show (if (Database.create sync).metadata.latest_height < 0 then 0
        else (Database.create sync).metadata.latest_height) = 0
      rw [if_neg (by omega)]
      rfl
    · rw [Database.genesis_hash, hmeta]
      show (if (0 : Nat) = 0 then h
        else (Database.create sync).metadata.genesis_hash) = h
      rw [if_pos rfl]
  · intro db h ht data hle
    by_cases hht : ht ≤ MAX_REASONABLE_HEIGHT
    · cases hsome : db.hash_index h with
      | some e =>
        rw [Database.put_dedup db h ht data hht (by rw [hsome]; rfl)]
        exact ⟨rfl, rfl⟩
      | none =>
        obtain ⟨_, _, _, hmeta⟩ := put_fresh_fields db h ht data hht hsome
        constructor
        · rw [Database.latest_hash, hmeta]
          show (if db.metadata.latest_height < ht then h
            else db.metadata.latest_hash) = db.latest_hash
          rw [if_neg (by omega)]
          rfl
        · rw [Database.latest_height, hmeta]
          show (if db.metadata.latest_height < ht then ht
            else db.metadata.latest_height) = db.latest_height
          rw [if_neg (by omega)]
          rfl
    · rw [Database.put, if_pos (by omega)]
      exact ⟨rfl, rfl⟩

/-- Witness for `genesis_latest_sentinel` at concrete inputs. -/
theorem genesis_latest_sentinel_witness :
    (((Database.create true).put hashOne 0 [1]).1 = .ok () ∧
      ((Database.create true).put hashOne 0 [1]).2.latest_hash =
        ZERO_HASH ∧
      ((Database.create true).put hashOne 0 [1]).2.latest_height = 0 ∧
      ((Database.create true).put hashOne 0 [1]).2.genesis_hash =
        hashOne) ∧
      (((Database.create true).put hashOne 0 [1]).2.put hashTwo 0
          [2]).2.latest_hash =
        ((Database.create true).put hashOne 0 [1]).2.latest_hash ∧
      (((Database.create true).put hashOne 0 [1]).2.put hashTwo 0
          [2]).2.latest_height =
        ((Database.create true).put hashOne 0 [1]).2.latest_height :=
  ⟨genesis_latest_sentinel.1 true hashOne [1],
    genesis_latest_sentinel.2 _ hashTwo 0 [2] (by decide)⟩

/-- C10: no write path checks the payload length — `put` never returns
`ValueTooLarge` and succeeds for every payload when the height guard and
dedup check pass; the index entry records the payload length reduced
modulo `2^32` (the `as u32` cast), `get` reads back exactly that many
bytes, and the cumulative data-size aggregate adds the full length as a
64-bit value. -/
theorem no_value_size_check :
    (∀ (db : Database) (h : Hash) (ht : Nat) (data : List Nat) (n : Nat),
      (db.put h ht data).1 ≠ .error (.valueTooLarge n)) ∧
    (∀ (db : Database) (h : Hash) (ht : Nat) (data : List Nat),
      ht ≤ MAX_REASONABLE_HEIGHT → db.hash_index h = none →
      (db.put h ht data).1 = .ok () ∧
      (db.put h ht data).2.hash_index h = some (putEntry db h ht data) ∧
      (putEntry db h ht data).size = data.length % 2 ^ 32 ∧
      (db.put h ht data).2.get h =
        .ok (data.take (data.length % 2 ^ 32)) ∧
      (db.put h ht data).2.metadata.data_size =
        (db.metadata.data_size + data.length) % 2 ^ 64) := by
  constructor
  · intro db h ht data n
    rw [Database.put]
    by_cases h1 : ht > MAX_REASONABLE_HEIGHT
    · rw [if_pos h1]; simp
    · rw [if_neg h1]
      by_cases h2 : (db.hash_index h).isSome
      · rw [if_pos h2]; simp
      · rw [if_neg h2]; simp
  · intro db h ht data hht hfresh
    obtain ⟨hmapeq, _, _, hmeta⟩ := put_fresh_fields db h ht data hht hfresh
    refine ⟨?_, ?_, rfl, ?_, ?_⟩
    · rw [Database.put_fresh _ _ _ _ hht hfresh]
    · rw [hmapeq, hmInsert_self]
    · exact Database.get_put_fresh db h ht data hht hfresh
    · rw [hmeta]
      rfl

/-- Witness for `no_value_size_check` at concrete inputs. -/
theorem no_value_size_check_witness :
    (((Database.create true).put hashOne 0 [1, 2, 3]).1 ≠
        .error (.valueTooLarge 3)) ∧
      ((Database.create true).put hashOne 0 [1, 2, 3]).1 = .ok () ∧
      ((Database.create true).put hashOne 0 [1, 2, 3]).2.hash_index
          hashOne =
        some (putEntry (Database.create true) hashOne 0 [1, 2, 3]) ∧
      (putEntry (Database.create true) hashOne 0 [1, 2, 3]).size =
        [1, 2, 3].length % 2 ^ 32 ∧
      ((Database.create true).put hashOne 0 [1, 2, 3]).2.get hashOne =
        .ok ([1, 2, 3].take ([1, 2, 3].length % 2 ^ 32)) ∧
      ((Database.create true).put hashOne 0 [1, 2, 3]).2.metadata.data_size
        = ((Database.create true).metadata.data_size + [1, 2, 3].length) %
            2 ^ 64 :=
  ⟨no_value_size_check.1 (Database.create true) hashOne 0 [1, 2, 3] 3,
    (no_value_size_check.2 (Database.create true) hashOne 0 [1, 2, 3]
      (by decide) (by decide)).1,
    (no_value_size_check.2 (Database.create true) hashOne 0 [1, 2, 3]
      (by decide) (by decide)).2.1,
    (no_value_size_check.2 (Database.create true) hashOne 0 [1, 2, 3]
      (by decide) (by decide)).2.2.1,
    (no_value_size_check.2 (Database.create true) hashOne 0 [1, 2, 3]
      (by decide) (by decide)).2.2.2.1,
    (no_value_size_check.2 (Database.create true) hashOne 0 [1, 2, 3]
      (by decide) (by decide)).2.2.2.2⟩

/-- C5, counterexample: a successful put sequence may use the zero-hash
sentinel (put performs no sentinel guard); its index records are then
skipped by the replay at open, so the reopened state loses the entry:
`get_by_height(0)` returned the payload before closing but NotFound after
reopening, and the rebuilt maps differ from the in-memory ones. -/
theorem reopen_fidelity_cex :
    ((Database.create true).put ZERO_HASH 0 [1]).1 = .ok () ∧
      ((Database.create true).put ZERO_HASH 0 [1]).2.get_by_height 0 =
        .ok [1] ∧
      (((Database.create true).put ZERO_HASH 0 [1]).2.sync.reopen.map
        (fun db => db.get_by_height 0)) = .ok (.error .notFound) := by
  decide

/-- C5 (amended: the hashes written must be valid non-sentinel hashes, and
the total payload must fit the 64-bit file offsets): after any sequence of
successful puts on a freshly created database followed by sync, reopening
from the four resulting files succeeds and rebuilds exactly the state that
was closed — in particular the same entry count, latest height, rebuilt
in-memory maps, and `get_by_height` results for every written height. -/
theorem reopen_fidelity (ops : List (Hash × Nat × List Nat))
    (hv : ValidOps ops) (hlen : totalLen ops < 2 ^ 64) :
    AllPutsSucceed (Database.create true) ops ∧
      (putSeq (Database.create true) ops).sync.reopen =
        .ok ((putSeq (Database.create true) ops).sync) := by
  have hg0 := goodState_create true
  have hseq := goodState_putSeq ops (Database.create true) hg0 hv
    (by show 0 + totalLen ops < 2 ^ 64; omega)
  refine ⟨hseq.2.1, ?_⟩
  rw [Database.reopen]
  show Database.open (putSeq (Database.create true) ops).sync_on_write
      (putSeq (Database.create true) ops).metadata.to_bytes
      (putSeq (Database.create true) ops).index_file
      (putSeq (Database.create true) ops).height_file
      (putSeq (Database.create true) ops).data_file = _
  exact open_sync _ hseq.1

/-- The ops of the repository's own reopen test. -/
def sampleOps : List (Hash × Nat × List Nat) :=
  [(hashOne, 0, [1]), (hashTwo, 1, [2, 3])]

/-- Witness for `reopen_fidelity` at a concrete two-put sequence. -/
theorem reopen_fidelity_witness :
    AllPutsSucceed (Database.create true) sampleOps ∧
      (putSeq (Database.create true) sampleOps).sync.reopen =
        .ok ((putSeq (Database.create true) sampleOps).sync) :=
  reopen_fidelity sampleOps (by decide) (by decide)

/-- C6, counterexample: the claim quantifies over distinct hashes, but if
the second hash is the zero sentinel its height record is skipped on
replay, so after a fresh open `get_by_height(5)` returns the first payload
A, not B. -/
theorem height_overwrite_cex :
    ((Database.create true).put hashOne 5 [10]).1 = .ok () ∧
      (((Database.create true).put hashOne 5 [10]).2.put ZERO_HASH 5
          [20]).1 = .ok () ∧
      (((Database.create true).put hashOne 5 [10]).2.put ZERO_HASH 5
          [20]).2.get_by_height 5 = .ok [20] ∧
      ((((Database.create true).put hashOne 5 [10]).2.put ZERO_HASH 5
          [20]).2.sync.reopen.map (fun db => db.get_by_height 5)) =
        .ok (.ok [10]) ∧
      (Except.ok [10] : Except Error (List Nat)) ≠ .ok [20] := by
  decide

/-- C6 (amended: the two distinct hashes must be valid non-sentinel
hashes; payload sizes within the `u32`/`u64` ranges of the embedding):
after `put(h1, 5, A)` then `put(h2, 5, B)` both succeed on a fresh
database, `get_by_height(5) = B` immediately; reopening from the four
files rebuilds exactly the closed state (so `get_by_height(5) = B` holds
after the fresh open too, by last-record-wins replay), while `h1` and `h2`
remain independently retrievable via `get`. -/
theorem height_overwrite (h1 h2 : Hash) (A B : List Nat)
    (hl1 : h1.length = 32) (hl2 : h2.length = 32) (hz1 : h1 ≠ ZERO_HASH)
    (hz2 : h2 ≠ ZERO_HASH) (hne : h1 ≠ h2) (hA : A.length < 2 ^ 32)
    (hB : B.length < 2 ^ 32) (hAB : A.length + B.length < 2 ^ 64) :
    ((Database.create true).put h1 5 A).1 = .ok () ∧
      (((Database.create true).put h1 5 A).2.put h2 5 B).1 = .ok () ∧
      (((Database.create true).put h1 5 A).2.put h2 5 B).2.get_by_height 5
        = .ok B ∧
      (((Database.create true).put h1 5 A).2.put h2 5 B).2.get h1 =
        .ok A ∧
      (((Database.create true).put h1 5 A).2.put h2 5 B).2.get h2 =
        .ok B ∧
      (((Database.create true).put h1 5 A).2.put h2 5 B).2.sync.reopen =
        .ok ((((Database.create true).put h1 5 A).2.put h2 5 B).2.sync) ∧
      (((Database.create true).put h1 5 A).2.put h2 5 B).2.sync.get_by_height
        5 = .ok B := by
  have hg0 := goodState_create true
  have h5 : (5 : Nat) ≤ MAX_REASONABLE_HEIGHT := by
    rw [MAX_REASONABLE_HEIGHT]; norm_num
  have hfresh1 : (Database.create true).hash_index h1 = none := rfl
  have hput1 := goodState_put (Database.create true) h1 5 A hg0 hl1 hz1 h5
    (by show (0 : Nat) < 2 ^ 64; norm_num)
  obtain ⟨hmap1, hhi1, hdf1, _⟩ :=
    put_fresh_fields (Database.create true) h1 5 A h5 hfresh1
  have hfresh2 : ((Database.create true).put h1 5 A).2.hash_index h2 =
      none := by
    rw [hmap1, hmInsert_other _ _ _ _ (fun hc => hne hc.symm)]
    rfl
  have hdf64 : ((Database.create true).put h1 5 A).2.data_file.length <
      2 ^ 64 := by
    rw [hdf1]
    show ([] ++ A).length < 2 ^ 64
    simp; omega
  have hput2 := goodState_put ((Database.create true).put h1 5 A).2 h2 5 B
    hput1.1 hl2 hz2 h5 hdf64
  obtain ⟨hmap2, hhi2, hdf2, _⟩ :=
    put_fresh_fields ((Database.create true).put h1 5 A).2 h2 5 B h5 hfresh2
  have hget2 : (((Database.create true).put h1 5 A).2.put h2 5 B).2.get h2
      = .ok B := by
    rw [Database.get_put_fresh _ _ _ _ h5 hfresh2,
      Nat.mod_eq_of_lt hB, List.take_length]
  have hgbh : (((Database.create true).put h1 5 A).2.put h2 5
      B).2.get_by_height 5 = .ok B := by
    rw [Database.get_by_height, hhi2, hmInsert_self]
    exact hget2
  refine ⟨hput1.2.1, hput2.2.1, hgbh, ?_, hget2, ?_, hgbh⟩
  · rw [Database.get, hmap2, hmInsert_other _ _ _ _ hne, hmap1,
      hmInsert_self, hdf2, hdf1]
    show (if (putEntry (Database.create true) h1 5 A).size ≤
        ((([] ++ A) ++ B).drop
          (putEntry (Database.create true) h1 5 A).offset).length
      then Except.ok (((([] ++ A) ++ B).drop
        (putEntry (Database.create true) h1 5 A).offset).take
        (putEntry (Database.create true) h1 5 A).size)
      else Except.error Error.ioFailure) = .ok A
    rw [show (putEntry (Database.create true) h1 5 A).offset = 0 from rfl,
      show (putEntry (Database.create true) h1 5 A).size =
        A.length % 2 ^ 32 from rfl,
      Nat.mod_eq_of_lt hA, List.drop_zero, List.nil_append,
      if_pos (by simp), List.take_left]
  · rw [Database.reopen]
    show Database.open
        (((Database.create true).put h1 5 A).2.put h2 5 B).2.sync_on_write
        (((Database.create true).put h1 5 A).2.put h2 5
          B).2.metadata.to_bytes
        (((Database.create true).put h1 5 A).2.put h2 5 B).2.index_file
        (((Database.create true).put h1 5 A).2.put h2 5 B).2.height_file
        (((Database.create true).put h1 5 A).2.put h2 5 B).2.data_file = _
    exact open_sync _ hput2.1

/-- Witness for `height_overwrite` at concrete inputs. -/
theorem height_overwrite_witness :
    ((Database.create true).put hashOne 5 [10]).1 = .ok () ∧
      (((Database.create true).put hashOne 5 [10]).2.put hashTwo 5
          [20]).1 = .ok () ∧
      (((Database.create true).put hashOne 5 [10]).2.put hashTwo 5
          [20]).2.get_by_height 5 = .ok [20] ∧
      (((Database.create true).put hashOne 5 [10]).2.put hashTwo 5
          [20]).2.get hashOne = .ok [10] ∧
      (((Database.create true).put hashOne 5 [10]).2.put hashTwo 5
          [20]).2.get hashTwo = .ok [20] ∧
      (((Database.create true).put hashOne 5 [10]).2.put hashTwo 5
          [20]).2.sync.reopen =
        .ok ((((Database.create true).put hashOne 5 [10]).2.put hashTwo 5
          [20]).2.sync) ∧
      (((Database.create true).put hashOne 5 [10]).2.put hashTwo 5
          [20]).2.sync.get_by_height 5 = .ok [20] :=
  height_overwrite hashOne hashTwo [10] [20] (by decide) (by decide)
    (by decide) (by decide) (by decide) (by decide) (by decide) (by decide)

end ADZDB
